import Mathlib

/-!
Verification development for `openmmml/models/macepotential.py` (openmm-ml).

The Python source is shallowly embedded over exact rational arithmetic:
torch tensors of shape (n, 3) become `List Vec3`, 3x3 cell matrices become
`Mat3` (rows), integer index tensors become `List Int`, and the padded
neighbor output of the external `NNPOps.neighbors.getNeighborPairs` call is
taken as an input (a list of index pairs with sentinel -1 plus the aligned
wrapped-displacement rows).  Floating-point dtype casts (`.to(dtype)`) are
modelled as the identity on ℚ; the float literals `96.4853` and `10.0` are
modelled by their decimal values.
-/

namespace MacePotential

/-- A 3-component Cartesian vector with exact rational entries. -/
@[ext]
structure Vec3 where
  x : ℚ
  y : ℚ
  z : ℚ
deriving DecidableEq, Repr

/-- The zero vector. -/
def vzero : Vec3 := ⟨0, 0, 0⟩

/-- Componentwise vector addition. -/
def vadd (a b : Vec3) : Vec3 := ⟨a.x + b.x, a.y + b.y, a.z + b.z⟩

/-- Componentwise vector subtraction. -/
def vsub (a b : Vec3) : Vec3 := ⟨a.x - b.x, a.y - b.y, a.z - b.z⟩

/-- Componentwise vector negation. -/
def vneg (a : Vec3) : Vec3 := ⟨-a.x, -a.y, -a.z⟩

/-- Scalar multiple of a vector. -/
def vscale (c : ℚ) (a : Vec3) : Vec3 := ⟨c * a.x, c * a.y, c * a.z⟩

/-- A 3x3 matrix given by its rows (the layout of a torch `(3, 3)` tensor
of cell vectors: row i is lattice vector i). -/
structure Mat3 where
  r0 : Vec3
  r1 : Vec3
  r2 : Vec3
deriving DecidableEq, Repr

/-- Determinant of a 3x3 matrix (cofactor expansion along the first row). -/
def det (m : Mat3) : ℚ :=
  m.r0.x * (m.r1.y * m.r2.z - m.r1.z * m.r2.y)
    - m.r0.y * (m.r1.x * m.r2.z - m.r1.z * m.r2.x)
    + m.r0.z * (m.r1.x * m.r2.y - m.r1.y * m.r2.x)

/-- The matrix inverse (adjugate over determinant), embedding
`torch.linalg.inv`; meaningful when `det m ≠ 0`. -/
def matInv (m : Mat3) : Mat3 :=
  let d := det m
  { r0 := ⟨(m.r1.y * m.r2.z - m.r1.z * m.r2.y) / d,
           (m.r0.z * m.r2.y - m.r0.y * m.r2.z) / d,
           (m.r0.y * m.r1.z - m.r0.z * m.r1.y) / d⟩
    r1 := ⟨(m.r1.z * m.r2.x - m.r1.x * m.r2.z) / d,
           (m.r0.x * m.r2.z - m.r0.z * m.r2.x) / d,
           (m.r0.z * m.r1.x - m.r0.x * m.r1.z) / d⟩
    r2 := ⟨(m.r1.x * m.r2.y - m.r1.y * m.r2.x) / d,
           (m.r0.y * m.r2.x - m.r0.x * m.r2.y) / d,
           (m.r0.x * m.r1.y - m.r0.y * m.r1.x) / d⟩ }

/-- Row vector times matrix, the row-wise action of `torch.mm (v, M)` on one
row `v`: component j of the result is Σ_i v_i M_{i j}. -/
def vecMulMat (v : Vec3) (m : Mat3) : Vec3 :=
  ⟨v.x * m.r0.x + v.y * m.r1.x + v.z * m.r2.x,
   v.x * m.r0.y + v.y * m.r1.y + v.z * m.r2.y,
   v.x * m.r0.z + v.y * m.r1.z + v.z * m.r2.z⟩

/-- Scalar multiple of a matrix, row by row. -/
def matScale (c : ℚ) (m : Mat3) : Mat3 :=
  ⟨vscale c m.r0, vscale c m.r1, vscale c m.r2⟩

theorem vecMulMat_matInv_mul (m : Mat3) (hd : det m ≠ 0) (v : Vec3) :
    vecMulMat (vecMulMat v (matInv m)) m = v := by
  have h := hd
  unfold det at h
  simp only [vecMulMat, matInv, det]
  refine Vec3.ext ?_ ?_ ?_ <;> field_simp <;> ring

/-! ### MACEForce._getNeighborPairs

`getNeighborPairs (positions, r_max, -1, cell)` from NNPOps is external to
this repository.  Its padded output is taken as input here: `neighbors` is
the list of columns of the returned `(2, P)` index tensor (entries may be
the sentinel `-1`), and `wrapped` is the list of rows of the returned
wrapped-displacement tensor (aligned with `neighbors`).  What follows
embeds lines 320-336 of `macepotential.py`. -/

/-- Torch advanced indexing `positions[i]` for an index tensor entry `i`
(a negative index counts from the end, as for torch tensors). -/
def posAt (ps : List Vec3) (i : Int) : Vec3 :=
  if i < 0 then ps.getD (ps.length + i).toNat vzero else ps.getD i.toNat vzero

/-- `neighbors[mask]` on the boolean mask `neighbors >= 0`: the `(2, P)`
tensor is flattened row-major, keeping the non-negative entries of row 0
followed by the non-negative entries of row 1. -/
def maskedFlat (neighbors : List (Int × Int)) : List Int :=
  (neighbors.map Prod.fst).filter (fun i => decide (0 ≤ i))
    ++ (neighbors.map Prod.snd).filter (fun i => decide (0 ≤ i))

/-- `neighbors[mask].view(2, -1)`: the flattened masked entries are
reshaped to two rows, paired up column by column. -/
def fwdPairs (neighbors : List (Int × Int)) : List (Int × Int) :=
  ((maskedFlat neighbors).take ((maskedFlat neighbors).length / 2)).zip
    ((maskedFlat neighbors).drop ((maskedFlat neighbors).length / 2))

/-- `wrappedDeltas[mask[0], :]`: the wrapped-displacement rows whose
column has a non-negative row-0 index. -/
def wrappedFiltered (neighbors : List (Int × Int)) (wrapped : List Vec3) :
    List Vec3 :=
  ((wrapped.zip neighbors).filter (fun q => decide (0 ≤ q.2.1))).map Prod.fst

/-- `torch.hstack((neighbors, neighbors.flip(0)))`: the forward pair list
followed by the same pairs with source and target rows swapped. -/
def edgeIndexOf (neighbors : List (Int × Int)) : List (Int × Int) :=
  fwdPairs neighbors ++ (fwdPairs neighbors).map (fun p => (p.2, p.1))

/-- `torch.vstack((wrappedDeltas, -wrappedDeltas))`: the filtered wrapped
displacements followed by their negations. -/
def wrappedAll (neighbors : List (Int × Int)) (wrapped : List Vec3) :
    List Vec3 :=
  wrappedFiltered neighbors wrapped
    ++ (wrappedFiltered neighbors wrapped).map vneg

/-- `positions[edgeIndex[0]] - positions[edgeIndex[1]]`, row by row. -/
def deltasOf (positions : List Vec3) (neighbors : List (Int × Int)) :
    List Vec3 :=
  (edgeIndexOf neighbors).map (fun e => vsub (posAt positions e.1) (posAt positions e.2))

/-- The result pair of `MACEForce._getNeighborPairs`. -/
structure NeighborResult where
  edgeIndex : List (Int × Int)
  shifts : List Vec3
deriving DecidableEq, Repr

/-- Embedding of `MACEForce._getNeighborPairs` (lines 320-336): filter the
sentinel slots out of the padded NNPOps output, symmetrize the pairs into a
bidirectional edge index, and compute the per-edge shift vectors — by
`shifts = ((deltas - wrappedDeltas) @ inv(cell)) @ cell` when a cell is
given, and as zero rows otherwise. -/
def getNeighborPairsResult (positions : List Vec3) (cell : Option Mat3)
    (neighbors : List (Int × Int)) (wrapped : List Vec3) : NeighborResult :=
  match cell with
  | some c =>
      { edgeIndex := edgeIndexOf neighbors
        shifts := List.zipWith
          (fun d w => vecMulMat (vecMulMat (vsub d w) (matInv c)) c)
          (deltasOf positions neighbors) (wrappedAll neighbors wrapped) }
  | none =>
      { edgeIndex := edgeIndexOf neighbors
        shifts := List.replicate (edgeIndexOf neighbors).length vzero }

/-- NNPOps invariant on the padded output: a column is either a valid pair
(both indices non-negative) or a fully sentinel column. -/
def Aligned (neighbors : List (Int × Int)) : Prop :=
  ∀ p ∈ neighbors, (0 ≤ p.1 ↔ 0 ≤ p.2)

/-- The columns of the padded output that survive the sentinel filter. -/
def retainedPairs (neighbors : List (Int × Int)) : List (Int × Int) :=
  neighbors.filter (fun p => decide (0 ≤ p.1 ∧ 0 ≤ p.2))

theorem filter_fst_eq_retained (n : List (Int × Int)) (h : Aligned n) :
    (n.map Prod.fst).filter (fun i => decide (0 ≤ i))
      = (retainedPairs n).map Prod.fst := by
  induction n with
  | nil => rfl
  | cons p t ih =>
    have hp := h p (List.mem_cons_self p t)
    have ht : Aligned t := fun q hq => h q (List.mem_cons_of_mem p hq)
    by_cases h1 : 0 ≤ p.1
    · have h2 := hp.mp h1
      simp only [retainedPairs, List.map_cons, List.filter_cons] at ih ⊢
      simp [h1, h2, ih ht]
    · have h2 : ¬ 0 ≤ p.2 := fun h2 => h1 (hp.mpr h2)
      simp only [retainedPairs, List.map_cons, List.filter_cons] at ih ⊢
      simp [h1, h2, ih ht]

theorem filter_snd_eq_retained (n : List (Int × Int)) (h : Aligned n) :
    (n.map Prod.snd).filter (fun i => decide (0 ≤ i))
      = (retainedPairs n).map Prod.snd := by
  induction n with
  | nil => rfl
  | cons p t ih =>
    have hp := h p (List.mem_cons_self p t)
    have ht : Aligned t := fun q hq => h q (List.mem_cons_of_mem p hq)
    by_cases h1 : 0 ≤ p.1
    · have h2 := hp.mp h1
      simp only [retainedPairs, List.map_cons, List.filter_cons] at ih ⊢
      simp [h1, h2, ih ht]
    · have h2 : ¬ 0 ≤ p.2 := fun h2 => h1 (hp.mpr h2)
      simp only [retainedPairs, List.map_cons, List.filter_cons] at ih ⊢
      simp [h1, h2, ih ht]

theorem fwdPairs_eq_retained (n : List (Int × Int)) (h : Aligned n) :
    fwdPairs n = retainedPairs n := by
  unfold fwdPairs maskedFlat
  rw [filter_fst_eq_retained n h, filter_snd_eq_retained n h]
  have hlen : ((retainedPairs n).map Prod.fst).length
      + ((retainedPairs n).map Prod.snd).length = 2 * (retainedPairs n).length := by
    simp; omega
  have hhalf : (((retainedPairs n).map Prod.fst
      ++ (retainedPairs n).map Prod.snd).length) / 2 = (retainedPairs n).length := by
    simp only [List.length_append, hlen]
    omega
  rw [hhalf,
    List.take_left' (by simp), List.drop_left' (by simp)]
  simp [List.zip_map']

theorem wrappedFiltered_length (n : List (Int × Int)) (w : List Vec3)
    (h : Aligned n) (hw : w.length = n.length) :
    (wrappedFiltered n w).length = (retainedPairs n).length := by
  induction n generalizing w with
  | nil => simp [wrappedFiltered, retainedPairs, List.zip_nil_right]
  | cons p t ih =>
    cases w with
    | nil => simp at hw
    | cons d dw =>
      have hp := h p (List.mem_cons_self p t)
      have ht : Aligned t := fun q hq => h q (List.mem_cons_of_mem p hq)
      have hw2 : dw.length = t.length := by simpa using hw
      have h3 := ih dw ht hw2
      simp only [wrappedFiltered, retainedPairs, List.length_map] at h3
      by_cases h1 : 0 ≤ p.1
      · have h2 := hp.mp h1
        simp only [wrappedFiltered, retainedPairs]
        simp [List.zip_cons_cons, List.filter_cons, h1, h2, h3]
      · have h2 : ¬ 0 ≤ p.2 := fun h2 => h1 (hp.mpr h2)
        simp only [wrappedFiltered, retainedPairs]
        simp [List.zip_cons_cons, List.filter_cons, h1, h2, h3]

theorem vadd_vsub_cancel (a b : Vec3) : vadd b (vsub a b) = a := by
  simp only [vadd, vsub]
  refine Vec3.ext ?_ ?_ ?_ <;> ring

theorem vneg_vneg (a : Vec3) : vneg (vneg a) = a := by
  simp [vneg]

/-- C1: for a periodic evaluation with a non-singular cell, every directed
edge's wrapped displacement plus its computed shift vector (the lattice
translation obtained by mapping `trueDelta - wrappedDelta` through the cell
inverse and back through the cell matrix) equals the true Cartesian
displacement between the edge's two endpoint positions, over exact rational
arithmetic. -/
theorem mace_periodic_shift_reconstructs_true_delta
    (positions : List Vec3) (c : Mat3) (neighbors : List (Int × Int))
    (wrapped : List Vec3) (hd : det c ≠ 0) (k : Nat)
    (hk : k < (edgeIndexOf neighbors).length)
    (hk2 : k < (wrappedAll neighbors wrapped).length) :
    vadd ((wrappedAll neighbors wrapped).getD k vzero)
        ((getNeighborPairsResult positions (some c) neighbors wrapped).shifts.getD k vzero)
      = vsub (posAt positions ((edgeIndexOf neighbors).getD k (0, 0)).1)
             (posAt positions ((edgeIndexOf neighbors).getD k (0, 0)).2) := by
  have hdl : (deltasOf positions neighbors).length = (edgeIndexOf neighbors).length :=
    List.length_map _ _
  have hkz : k < (List.zipWith
      (fun d w => vecMulMat (vecMulMat (vsub d w) (matInv c)) c)
      (deltasOf positions neighbors) (wrappedAll neighbors wrapped)).length := by
    rw [List.length_zipWith]
    omega
  have hkd : k < (deltasOf positions neighbors).length := by omega
  simp only [getNeighborPairsResult]
  rw [List.getD_eq_getElem _ _ hkz, List.getElem_zipWith,
    List.getD_eq_getElem _ _ hk2, List.getD_eq_getElem _ _ hk]
  rw [vecMulMat_matInv_mul c hd, vadd_vsub_cancel]
  simp only [deltasOf, List.getElem_map]

/-- C4: for a non-periodic evaluation (no cell), every shift row is exactly
the zero vector, and there are as many shift rows as directed edges. -/
theorem mace_nonperiodic_shifts_zero
    (positions : List Vec3) (neighbors : List (Int × Int)) (wrapped : List Vec3) :
    (∀ s ∈ (getNeighborPairsResult positions none neighbors wrapped).shifts, s = vzero) ∧
    (getNeighborPairsResult positions none neighbors wrapped).shifts.length
      = (getNeighborPairsResult positions none neighbors wrapped).edgeIndex.length := by
  constructor
  · intro s hs
    simp only [getNeighborPairsResult] at hs
    exact List.eq_of_mem_replicate hs
  · simp [getNeighborPairsResult]

/-- C5: every sentinel slot of the padded NNPOps output is discarded: the
filtered pair list is exactly the list of columns with non-negative
indices, the filtered wrapped-displacement list keeps exactly the rows of
those columns, and no sentinel index reaches the final edge index. -/
theorem mace_sentinel_slots_discarded
    (neighbors : List (Int × Int)) (wrapped : List Vec3)
    (hal : Aligned neighbors) :
    fwdPairs neighbors = neighbors.filter (fun p => decide (0 ≤ p.1 ∧ 0 ≤ p.2)) ∧
    wrappedFiltered neighbors wrapped
      = ((wrapped.zip neighbors).filter
          (fun q => decide (0 ≤ q.2.1 ∧ 0 ≤ q.2.2))).map Prod.fst ∧
    ∀ e ∈ edgeIndexOf neighbors, 0 ≤ e.1 ∧ 0 ≤ e.2 := by
  have hF : fwdPairs neighbors = retainedPairs neighbors :=
    fwdPairs_eq_retained neighbors hal
  refine ⟨hF, ?_, ?_⟩
  · unfold wrappedFiltered
    refine congrArg (List.map Prod.fst) (List.filter_congr ?_)
    intro q hq
    have hmem := (List.of_mem_zip hq).2
    have hiff := hal q.2 hmem
    rw [decide_eq_decide]
    exact ⟨fun h1 => ⟨h1, hiff.mp h1⟩, fun h => h.1⟩
  · intro e he
    unfold edgeIndexOf at he
    rw [hF] at he
    rcases List.mem_append.mp he with h1 | h1
    · have := (List.mem_filter.mp h1).2
      exact of_decide_eq_true this
    · rcases List.mem_map.mp h1 with ⟨p, hp, hpe⟩
      have := (List.mem_filter.mp hp).2
      have hpp := of_decide_eq_true this
      subst hpe
      exact ⟨hpp.2, hpp.1⟩

/-- C2: the edge index returned by `_getNeighborPairs` has length exactly
twice the retained-pair count, is the horizontal concatenation of the
forward pair list and the reversed pair list, and is symmetric: for every
directed edge (i, j) with displacement d there is a directed edge (j, i)
with displacement -d. -/
theorem mace_edge_index_symmetric
    (positions : List Vec3) (cell : Option Mat3)
    (neighbors : List (Int × Int)) (wrapped : List Vec3)
    (hal : Aligned neighbors) (hw : wrapped.length = neighbors.length) :
    (getNeighborPairsResult positions cell neighbors wrapped).edgeIndex
        = edgeIndexOf neighbors ∧
    (edgeIndexOf neighbors).length = 2 * (retainedPairs neighbors).length ∧
    edgeIndexOf neighbors
      = fwdPairs neighbors ++ (fwdPairs neighbors).map (fun p => (p.2, p.1)) ∧
    ∀ k, k < (edgeIndexOf neighbors).length →
      ∃ k2, k2 < (edgeIndexOf neighbors).length ∧
        (edgeIndexOf neighbors).getD k2 (0, 0)
          = (((edgeIndexOf neighbors).getD k (0, 0)).2,
             ((edgeIndexOf neighbors).getD k (0, 0)).1) ∧
        (wrappedAll neighbors wrapped).getD k2 vzero
          = vneg ((wrappedAll neighbors wrapped).getD k vzero) := by
  have hF := fwdPairs_eq_retained neighbors hal
  have hWlen : (wrappedFiltered neighbors wrapped).length
      = (fwdPairs neighbors).length := by
    rw [hF]
    exact wrappedFiltered_length neighbors wrapped hal hw
  set F := fwdPairs neighbors with hFdef
  set W := wrappedFiltered neighbors wrapped with hWdef
  have hE : edgeIndexOf neighbors = F ++ F.map (fun p => (p.2, p.1)) := rfl
  have hWA : wrappedAll neighbors wrapped = W ++ W.map vneg := rfl
  have hFlen : F.length = (retainedPairs neighbors).length := by rw [hF]
  refine ⟨by cases cell <;> rfl, ?_, rfl, ?_⟩
  · rw [hE]
    simp only [List.length_append, List.length_map]
    omega
  · intro k hk
    rw [hE, List.length_append, List.length_map] at hk
    by_cases hc : k < F.length
    · refine ⟨k + F.length, ?_, ?_, ?_⟩
      · rw [hE]
        simp only [List.length_append, List.length_map]
        omega
      · rw [hE,
          List.getD_append_right F (F.map (fun p => (p.2, p.1))) (0, 0)
            (k + F.length) (by omega),
          Nat.add_sub_cancel,
          List.getD_append F (F.map (fun p => (p.2, p.1))) (0, 0) k hc,
          List.getD_eq_getElem (F.map (fun p => (p.2, p.1))) (0, 0)
            (by simpa using hc),
          List.getD_eq_getElem F (0, 0) hc, List.getElem_map]
      · have hkW : k < W.length := by omega
        have hsub : k + F.length - W.length = k := by omega
        rw [hWA,
          List.getD_append_right W (W.map vneg) vzero (k + F.length) (by omega),
          hsub,
          List.getD_append W (W.map vneg) vzero k hkW,
          List.getD_eq_getElem (W.map vneg) vzero (by simpa using hkW),
          List.getD_eq_getElem W vzero hkW, List.getElem_map]
    · have hj : k - F.length < F.length := by omega
      refine ⟨k - F.length, ?_, ?_, ?_⟩
      · rw [hE]
        simp only [List.length_append, List.length_map]
        omega
      · rw [hE,
          List.getD_append F (F.map (fun p => (p.2, p.1))) (0, 0)
            (k - F.length) hj,
          List.getD_append_right F (F.map (fun p => (p.2, p.1))) (0, 0) k
            (by omega),
          List.getD_eq_getElem (F.map (fun p => (p.2, p.1))) (0, 0)
            (by simpa using hj),
          List.getD_eq_getElem F (0, 0) hj, List.getElem_map]
      · have hjW : k - F.length < W.length := by omega
        have hsub : k - F.length = k - W.length := by omega
        rw [hWA,
          List.getD_append W (W.map vneg) vzero (k - F.length) hjW,
          List.getD_append_right W (W.map vneg) vzero k (by omega),
          ← hsub,
          List.getD_eq_getElem (W.map vneg) vzero (by simpa using hjW),
          List.getD_eq_getElem W vzero hjW, List.getElem_map, vneg_vneg]

/-! ### Concrete periodic scenario

Two atoms at (0,0,0) and (0,0,9.9) in a cubic cell of side 10, cutoff 1:
the NNPOps output has one valid column (1,0) with wrapped displacement
(0,0,-0.1) and one sentinel column. -/

/-- Example positions (model units). -/
def exPositions : List Vec3 := [⟨0, 0, 0⟩, ⟨0, 0, 99/10⟩]

/-- Example cubic cell of side 10. -/
def exCell : Mat3 := ⟨⟨10, 0, 0⟩, ⟨0, 10, 0⟩, ⟨0, 0, 10⟩⟩

/-- Example padded NNPOps neighbor columns (one valid, one sentinel). -/
def exNeighbors : List (Int × Int) := [(1, 0), (-1, -1)]

/-- Example wrapped displacements aligned with `exNeighbors`. -/
def exWrapped : List Vec3 := [⟨0, 0, -1/10⟩, ⟨0, 0, 0⟩]

theorem exCell_det : det exCell = 1000 := by
  norm_num [det, exCell]

theorem exScenario_shifts :
    getNeighborPairsResult exPositions (some exCell) exNeighbors exWrapped
      = { edgeIndex := [(1, 0), (0, 1)],
          shifts := [⟨0, 0, 10⟩, ⟨0, 0, -10⟩] } := by
  norm_num [getNeighborPairsResult, edgeIndexOf, fwdPairs, maskedFlat,
    wrappedFiltered, wrappedAll, deltasOf, posAt, vecMulMat, matInv, det,
    vsub, vadd, vneg, vzero, exPositions, exCell, exNeighbors, exWrapped]

theorem mace_periodic_shift_reconstructs_true_delta_witness :
    det exCell ≠ 0 ∧
    0 < (edgeIndexOf exNeighbors).length ∧
    0 < (wrappedAll exNeighbors exWrapped).length ∧
    vadd ((wrappedAll exNeighbors exWrapped).getD 0 vzero)
        ((getNeighborPairsResult exPositions (some exCell) exNeighbors
            exWrapped).shifts.getD 0 vzero)
      = vsub (posAt exPositions ((edgeIndexOf exNeighbors).getD 0 (0, 0)).1)
             (posAt exPositions ((edgeIndexOf exNeighbors).getD 0 (0, 0)).2) :=
  ⟨by rw [exCell_det]; norm_num, by decide, by decide,
    mace_periodic_shift_reconstructs_true_delta exPositions exCell exNeighbors
      exWrapped (by rw [exCell_det]; norm_num) 0 (by decide) (by decide)⟩

theorem mace_edge_index_symmetric_witness :
    Aligned exNeighbors ∧ exWrapped.length = exNeighbors.length ∧
    (edgeIndexOf exNeighbors).length = 2 * (retainedPairs exNeighbors).length :=
  ⟨by unfold Aligned; decide, by rfl,
    (mace_edge_index_symmetric exPositions (some exCell) exNeighbors exWrapped
      (by unfold Aligned; decide) (by rfl)).2.1⟩

theorem mace_sentinel_slots_discarded_witness :
    Aligned exNeighbors ∧
    fwdPairs exNeighbors
      = exNeighbors.filter (fun p => decide (0 ≤ p.1 ∧ 0 ≤ p.2)) :=
  ⟨by unfold Aligned; decide,
    (mace_sentinel_slots_discarded exNeighbors exWrapped
      (by unfold Aligned; decide)).1⟩

/-! ### MACEPotentialImpl.addForces: configuration checks

Lines 156-198 of `macepotential.py` run, in order: the `returnEnergyType`
assertion, model selection by name (with the MACE-OFF23 size assertion and
the `modelPath` check), and the precision selection.  `system.addForce`
runs only at line 407, after every check has passed.  Python `str.split`
and `str.startswith` are modelled over the character lists of Lean
strings, since those are the operations the name dispatch uses. -/

/-- Python `s.split(sep)` for a one-character separator. -/
def splitChars (sep : Char) : List Char → List (List Char)
  | [] => [[]]
  | c :: cs =>
    let r := splitChars sep cs
    if c = sep then [] :: r else (c :: r.headD []) :: r.tail

/-- Python `s.split("-")[-1]` (a split result is never empty). -/
def lastDashToken (s : String) : List Char :=
  (splitChars '-' s.data).getLastD []

/-- Python `s.startswith(pre)`. -/
def pyStartsWith (s pre : String) : Bool :=
  s.data.take pre.data.length == pre.data

/-- The two torch floating dtypes the precision option selects between. -/
inductive Dtype
  | float32
  | float64
deriving DecidableEq, Repr

/-- The distinguishable configuration-time failures of `addForces`:
the two assertion failures (lines 156 and 167) and the three
`ValueError`s (lines 175, 177 and 195). -/
inductive ConfigError
  | unsupportedEnergyKind
  | invalidMaceOffSize
  | missingModelSource
  | unsupportedModel
  | unsupportedPrecision
deriving DecidableEq, Repr

/-- Lines 165-178: dispatch on the model name.  A name starting with
`mace-off23` must have a last dash-separated token in
{small, medium, large}; the name `mace` requires a `modelPath`; any other
name is rejected. -/
def loadModelCheck (name : String) (modelPath : Option String) :
    Except ConfigError Unit :=
  if pyStartsWith name "mace-off23" then
    if lastDashToken name = "small".data ∨ lastDashToken name = "medium".data
        ∨ lastDashToken name = "large".data then
      Except.ok ()
    else Except.error ConfigError.invalidMaceOffSize
  else if name = "mace" then
    if modelPath.isSome then Except.ok ()
    else Except.error ConfigError.missingModelSource
  else Except.error ConfigError.unsupportedModel

/-- Lines 186-198: the working dtype is the model's own when no precision
is requested, float32 for `single`, float64 for `double`, and any other
value is rejected. -/
def selectDtype (precision : Option String) (modelDefaultDtype : Dtype) :
    Except ConfigError Dtype :=
  match precision with
  | none => Except.ok modelDefaultDtype
  | some p =>
    if p = "single" then Except.ok Dtype.float32
    else if p = "double" then Except.ok Dtype.float64
    else Except.error ConfigError.unsupportedPrecision

/-- The configuration checks of `addForces` in source order: energy kind
(line 156), model selection (165-178), precision (186-198).  On success it
yields the working dtype. -/
def addForcesCheck (name : String) (modelPath : Option String)
    (returnEnergyType : String) (precision : Option String)
    (modelDefaultDtype : Dtype) : Except ConfigError Dtype :=
  if returnEnergyType = "interaction_energy" ∨ returnEnergyType = "energy" then
    match loadModelCheck name modelPath with
    | Except.ok _ => selectDtype precision modelDefaultDtype
    | Except.error e => Except.error e
  else Except.error ConfigError.unsupportedEnergyKind

/-- `addForces` as it acts on the host system, modelled as the list of
forces already added (each recorded by its working dtype): the force is
appended at line 407 only when every check passed, and a failing check
leaves the system untouched. -/
def addForcesSystem (name : String) (modelPath : Option String)
    (returnEnergyType : String) (precision : Option String)
    (modelDefaultDtype : Dtype) (system : List Dtype) :
    List Dtype × Option ConfigError :=
  match addForcesCheck name modelPath returnEnergyType precision
      modelDefaultDtype with
  | Except.ok d => (system ++ [d], none)
  | Except.error e => (system, some e)

theorem loadModelCheck_error_cases (name : String) (mp : Option String)
    (e : ConfigError) (h : loadModelCheck name mp = Except.error e) :
    e = ConfigError.invalidMaceOffSize ∨ e = ConfigError.missingModelSource
      ∨ e = ConfigError.unsupportedModel := by
  unfold loadModelCheck at h
  split_ifs at h <;> simp_all

theorem selectDtype_error_cases (p : Option String) (d : Dtype)
    (e : ConfigError) (h : selectDtype p d = Except.error e) :
    e = ConfigError.unsupportedPrecision := by
  unfold selectDtype at h
  cases p with
  | none => simp_all
  | some s =>
    simp only [] at h
    split_ifs at h
    simp_all

/-- C6: with the earlier checks passing, the working precision is the
model's own dtype when no precision option is given, float32 for `single`,
float64 for `double`, and any other value fails with the unsupported
precision error before any force is added to the system. -/
theorem mace_precision_selection
    (name : String) (modelPath : Option String) (ret : String)
    (d : Dtype) (sys : List Dtype)
    (hret : ret = "interaction_energy" ∨ ret = "energy")
    (hload : loadModelCheck name modelPath = Except.ok ()) :
    addForcesCheck name modelPath ret none d = Except.ok d ∧
    addForcesCheck name modelPath ret (some "single") d
        = Except.ok Dtype.float32 ∧
    addForcesCheck name modelPath ret (some "double") d
        = Except.ok Dtype.float64 ∧
    ∀ p : String, p ≠ "single" → p ≠ "double" →
      addForcesSystem name modelPath ret (some p) d sys
        = (sys, some ConfigError.unsupportedPrecision) := by
  have hbase : ∀ prec, addForcesCheck name modelPath ret prec d
      = selectDtype prec d := by
    intro prec
    unfold addForcesCheck
    rw [if_pos hret, hload]
  refine ⟨?_, ?_, ?_, ?_⟩
  · rw [hbase]
    rfl
  · rw [hbase]
    simp [selectDtype]
  · rw [hbase]
    simp [selectDtype]
  · intro p h1 h2
    unfold addForcesSystem
    rw [hbase]
    simp [selectDtype, h1, h2]

theorem mace_precision_selection_witness :
    (("energy" : String) = "interaction_energy"
        ∨ ("energy" : String) = "energy") ∧
    loadModelCheck "mace" (some "MACE.model") = Except.ok () ∧
    addForcesCheck "mace" (some "MACE.model") "energy" (some "double")
        Dtype.float32 = Except.ok Dtype.float64 ∧
    addForcesSystem "mace" (some "MACE.model") "energy" (some "half")
        Dtype.float32 [] = ([], some ConfigError.unsupportedPrecision) :=
  ⟨Or.inr rfl, by rfl,
   (mace_precision_selection "mace" (some "MACE.model") "energy"
     Dtype.float32 [] (Or.inr rfl) (by rfl)).2.2.1,
   (mace_precision_selection "mace" (some "MACE.model") "energy"
     Dtype.float32 [] (Or.inr rfl) (by rfl)).2.2.2 "half"
       (by decide) (by decide)⟩

/-- C8: a requested energy kind outside {interaction_energy, energy} fails
with the unsupported-energy-kind error at configuration time, whatever the
model arguments (the check precedes model loading), and leaves the system
without the force; the two enumerated kinds never trip this check. -/
theorem mace_energy_kind_validation
    (name : String) (modelPath : Option String) (prec : Option String)
    (d : Dtype) (sys : List Dtype) (ret : String) :
    (¬ (ret = "interaction_energy" ∨ ret = "energy") →
      addForcesSystem name modelPath ret prec d sys
        = (sys, some ConfigError.unsupportedEnergyKind)) ∧
    ((ret = "interaction_energy" ∨ ret = "energy") →
      (addForcesSystem name modelPath ret prec d sys).2
        ≠ some ConfigError.unsupportedEnergyKind) := by
  constructor
  · intro h
    unfold addForcesSystem addForcesCheck
    rw [if_neg h]
  · intro h
    unfold addForcesSystem addForcesCheck
    rw [if_pos h]
    cases hl : loadModelCheck name modelPath with
    | ok u =>
      cases hs : selectDtype prec d with
      | ok d2 => simp
      | error e =>
        have he := selectDtype_error_cases prec d e hs
        simp [he]
    | error e =>
      have he := loadModelCheck_error_cases name modelPath e hl
      rcases he with h1 | h1 | h1 <;> simp [h1]

theorem mace_energy_kind_validation_witness :
    (¬ (("free_energy" : String) = "interaction_energy"
        ∨ ("free_energy" : String) = "energy")) ∧
    addForcesSystem "mace" (some "MACE.model") "free_energy" none
        Dtype.float32 [] = ([], some ConfigError.unsupportedEnergyKind) ∧
    (addForcesSystem "mace" (some "MACE.model") "energy" none
        Dtype.float32 []).2 ≠ some ConfigError.unsupportedEnergyKind :=
  ⟨by decide,
   (mace_energy_kind_validation "mace" (some "MACE.model") none
     Dtype.float32 [] "free_energy").1 (by decide),
   (mace_energy_kind_validation "mace" (some "MACE.model") none
     Dtype.float32 [] "energy").2 (Or.inr rfl)⟩

/-- C9 counterexample: `mace-off23-extra-large` is neither `mace` nor one
of the three recognized pre-trained variants, yet configuration does not
fail — the name passes the dispatch (its last dash token is `large`) and
the force is added. -/
theorem mace_model_name_claim_counterexample :
    ("mace-off23-extra-large" : String) ≠ "mace" ∧
    ("mace-off23-extra-large" : String) ≠ "mace-off23-small" ∧
    ("mace-off23-extra-large" : String) ≠ "mace-off23-medium" ∧
    ("mace-off23-extra-large" : String) ≠ "mace-off23-large" ∧
    addForcesSystem "mace-off23-extra-large" none "energy" none
        Dtype.float64 [] = ([Dtype.float64], none) := by
  refine ⟨by decide, by decide, by decide, by decide, ?_⟩
  rfl

/-- C9 amended: configuration fails with the missing-model-source error
when the name is `mace` and no model path is supplied; a name that neither
starts with `mace-off23` nor equals `mace` fails with the
unsupported-model error; a name starting with `mace-off23` whose last
dash-separated token is not small/medium/large fails with the
invalid-size error.  (A name merely starting with `mace-off23` whose last
dash token is a valid size — e.g. `mace-off23-extra-large` — is accepted.)
All these errors are distinguishable, and a failing check adds no
force. -/
theorem mace_model_source_validation
    (name : String) (modelPath : Option String) (prec : Option String)
    (d : Dtype) (sys : List Dtype) (ret : String)
    (hret : ret = "interaction_energy" ∨ ret = "energy") :
    (name = "mace" → modelPath = none →
      addForcesSystem name modelPath ret prec d sys
        = (sys, some ConfigError.missingModelSource)) ∧
    (pyStartsWith name "mace-off23" = false → name ≠ "mace" →
      addForcesSystem name modelPath ret prec d sys
        = (sys, some ConfigError.unsupportedModel)) ∧
    (pyStartsWith name "mace-off23" = true →
      ¬ (lastDashToken name = "small".data
          ∨ lastDashToken name = "medium".data
          ∨ lastDashToken name = "large".data) →
      addForcesSystem name modelPath ret prec d sys
        = (sys, some ConfigError.invalidMaceOffSize)) ∧
    ConfigError.missingModelSource ≠ ConfigError.unsupportedModel ∧
    ConfigError.missingModelSource ≠ ConfigError.invalidMaceOffSize := by
  refine ⟨?_, ?_, ?_, by decide, by decide⟩
  · intro h1 h2
    subst h1
    subst h2
    unfold addForcesSystem addForcesCheck
    rw [if_pos hret]
    rfl
  · intro h1 h2
    unfold addForcesSystem addForcesCheck loadModelCheck
    rw [if_pos hret]
    simp [h1, h2]
  · intro h1 h2
    unfold addForcesSystem addForcesCheck loadModelCheck
    rw [if_pos hret]
    simp [h1, h2]

theorem mace_model_source_validation_witness :
    addForcesSystem "mace" none "energy" none Dtype.float32 []
      = ([], some ConfigError.missingModelSource) ∧
    addForcesSystem "ani2x" none "energy" none Dtype.float32 []
      = ([], some ConfigError.unsupportedModel) ∧
    addForcesSystem "mace-off23-tiny" none "energy" none Dtype.float32 []
      = ([], some ConfigError.invalidMaceOffSize) :=
  ⟨(mace_model_source_validation "mace" none none Dtype.float32 [] "energy"
      (Or.inr rfl)).1 rfl rfl,
   (mace_model_source_validation "ani2x" none none Dtype.float32 [] "energy"
      (Or.inr rfl)).2.1 (by decide) (by decide),
   (mace_model_source_validation "mace-off23-tiny" none none Dtype.float32
      [] "energy" (Or.inr rfl)).2.2.1 (by decide) (by decide)⟩

/-! ### Graph assembly and the forward pass

Lines 180-184 of `addForces` pick the ML-region atoms in the order the
`atoms` iterable supplies them; lines 206-214 one-hot encode their atomic
numbers against the model's species table (`atomic_numbers_to_indices`
from mace maps an atomic number to its index in the table, `to_one_hot`
produces a row with a single 1 at that index).  `MACEForce.__init__`
(lines 273-292) stores the sorted atom indices and the static input
dictionary; `MACEForce.forward` (lines 338-384) selects and scales the
positions, rebuilds edges and shifts, updates three entries of the input
dictionary, and selects the requested energy from the model output.  The
external compiled model is a parameter mapping an input dictionary and the
requested energy kind to an optional scalar (`none` models the model
returning no value). -/

/-- Lines 181-184: atomic numbers of the ML region, in the order the
`atoms` iterable supplies them (all atoms when it is absent). -/
def includedAtomicNumbers (allZ : List Nat) (atoms : Option (List Nat)) :
    List Nat :=
  match atoms with
  | none => allZ
  | some l => l.map (fun i => allZ.getD i 0)

/-- A one-hot row of the given length with its single 1 at `idx`. -/
def oneHotRow (tableLen idx : Nat) : List ℚ :=
  (List.range tableLen).map (fun c => if c = idx then 1 else 0)

/-- Lines 206-214: one-hot species features, one row per region atom, the
hot column being the atomic number's position in the species table. -/
def nodeAttrsOf (zTable : List Nat) (zs : List Nat) : List (List ℚ) :=
  zs.map (fun z => oneHotRow zTable.length (zTable.indexOf z))

/-- Lines 273-276: the stored atom indices, `sorted(atoms)` when an atom
subset was supplied and absent otherwise. -/
def maceIndices (atoms : Option (List Nat)) : Option (List Nat) :=
  match atoms with
  | none => none
  | some l => some (List.insertionSort (· ≤ ·) l)

/-- The model input dictionary: the four entries built at construction
(lines 279-292) and the three entries `forward` fills per call (lines
371-373, absent before the first call). -/
structure InputDict where
  ptr : List Int
  node_attrs : List (List ℚ)
  batch : List Int
  pbc : List Bool
  positions : Option (List Vec3)
  edge_index : Option (List (Int × Int))
  shifts : Option (List Vec3)
deriving DecidableEq, Repr

/-- Lines 279-292: the input dictionary as built at construction. -/
def initInputDict (nodeAttrs : List (List ℚ)) (periodic : Bool) : InputDict :=
  { ptr := [0, (nodeAttrs.length : Int)]
    node_attrs := nodeAttrs
    batch := List.replicate nodeAttrs.length 0
    pbc := [periodic, periodic, periodic]
    positions := none
    edge_index := none
    shifts := none }

/-- Line 269: eV-to-kJ/mol energy conversion, the float literal 96.4853
taken at its decimal value. -/
def energyScale : ℚ := 964853 / 10000

/-- Line 270: nm-to-Angstrom length conversion. -/
def lengthScale : ℚ := 10

/-- The evaluation-time failure (the assertion at lines 380-382: the model
returned no energy value). -/
inductive EvalError
  | missingEnergyOutput
deriving DecidableEq, Repr

/-- Lines 357-358: `positions[self.indices]` when an atom subset was
stored, the whole tensor otherwise. -/
def selectedPositions (indices : Option (List Nat)) (positions : List Vec3) :
    List Vec3 :=
  match indices with
  | none => positions
  | some idx => idx.map (fun i => positions.getD i vzero)

/-- One per-call input to `forward`: host positions and box vectors plus
the padded output the external NNPOps neighbor search returns for the
scaled positions. -/
structure CallInput where
  positions : List Vec3
  boxvectors : Option Mat3
  neighbors : List (Int × Int)
  wrapped : List Vec3

/-- Lines 356-373: the input dictionary after a `forward` call — the same
dictionary with exactly the `positions`, `edge_index` and `shifts` entries
overwritten (positions selected by the stored indices and scaled to model
units, cell scaled likewise, edges and shifts rebuilt). -/
def updatedInputDict (indices : Option (List Nat)) (st : InputDict)
    (call : CallInput) : InputDict :=
  { st with
    positions :=
      some ((selectedPositions indices call.positions).map (vscale lengthScale))
    edge_index :=
      some (getNeighborPairsResult
        ((selectedPositions indices call.positions).map (vscale lengthScale))
        (call.boxvectors.map (matScale lengthScale))
        call.neighbors call.wrapped).edgeIndex
    shifts :=
      some (getNeighborPairsResult
        ((selectedPositions indices call.positions).map (vscale lengthScale))
        (call.boxvectors.map (matScale lengthScale))
        call.neighbors call.wrapped).shifts }

/-- `MACEForce.forward` (lines 338-384): update the input dictionary, run
the model, and either scale the returned energy to host units or fail with
the missing-energy assertion; the updated dictionary persists either
way. -/
def forwardStep (model : InputDict → String → Option ℚ)
    (indices : Option (List Nat)) (returnEnergyType : String)
    (st : InputDict) (call : CallInput) : InputDict × Except EvalError ℚ :=
  match model (updatedInputDict indices st call) returnEnergyType with
  | none => (updatedInputDict indices st call,
             Except.error EvalError.missingEnergyOutput)
  | some e => (updatedInputDict indices st call, Except.ok (e * energyScale))

theorem forwardStep_fst (model : InputDict → String → Option ℚ)
    (indices : Option (List Nat)) (ret : String) (st : InputDict)
    (call : CallInput) :
    (forwardStep model indices ret st call).1 = updatedInputDict indices st call := by
  unfold forwardStep
  cases model (updatedInputDict indices st call) ret <;> rfl

/-- C7: every evaluation call either returns the scalar the model output
mapping holds for the requested energy kind multiplied by the fixed energy
conversion factor, or fails with the missing-energy-output error exactly
when the model returns no value for that kind; there is no other
outcome. -/
theorem mace_forward_energy_selection
    (model : InputDict → String → Option ℚ) (indices : Option (List Nat))
    (ret : String) (st : InputDict) (call : CallInput) :
    ((∃ v, model (forwardStep model indices ret st call).1 ret = some v
        ∧ (forwardStep model indices ret st call).2
            = Except.ok (v * energyScale))
      ∨ (model (forwardStep model indices ret st call).1 ret = none
        ∧ (forwardStep model indices ret st call).2
            = Except.error EvalError.missingEnergyOutput)) ∧
    ((forwardStep model indices ret st call).2
        = Except.error EvalError.missingEnergyOutput
      ↔ model (forwardStep model indices ret st call).1 ret = none) := by
  rw [forwardStep_fst]
  unfold forwardStep
  cases hm : model (updatedInputDict indices st call) ret with
  | none => exact ⟨Or.inr ⟨rfl, rfl⟩, by simp⟩
  | some v => exact ⟨Or.inl ⟨v, rfl, rfl⟩, by simp⟩

/-- C10: across any sequence of `forward` calls, the construction-time
entries of the input dictionary — the graph-boundary pointer array, the
one-hot species features, the zero batch indices and the 3-element
isotropic periodicity flag — keep their construction values; each single
call leaves every entry other than positions, edge index and shifts
untouched. -/
theorem mace_input_dict_construction_fields_immutable
    (model : InputDict → String → Option ℚ) (indices : Option (List Nat))
    (ret : String) (nodeAttrs : List (List ℚ)) (periodic : Bool)
    (calls : List CallInput) :
    ((calls.foldl (fun s c => (forwardStep model indices ret s c).1)
        (initInputDict nodeAttrs periodic)).ptr
          = [0, (nodeAttrs.length : Int)] ∧
     (calls.foldl (fun s c => (forwardStep model indices ret s c).1)
        (initInputDict nodeAttrs periodic)).node_attrs = nodeAttrs ∧
     (calls.foldl (fun s c => (forwardStep model indices ret s c).1)
        (initInputDict nodeAttrs periodic)).batch
          = List.replicate nodeAttrs.length 0 ∧
     (calls.foldl (fun s c => (forwardStep model indices ret s c).1)
        (initInputDict nodeAttrs periodic)).pbc
          = [periodic, periodic, periodic]) ∧
    (∀ (st : InputDict) (c : CallInput),
      ((forwardStep model indices ret st c).1).ptr = st.ptr ∧
      ((forwardStep model indices ret st c).1).node_attrs = st.node_attrs ∧
      ((forwardStep model indices ret st c).1).batch = st.batch ∧
      ((forwardStep model indices ret st c).1).pbc = st.pbc) := by
  have hstep : ∀ (st : InputDict) (c : CallInput),
      ((forwardStep model indices ret st c).1).ptr = st.ptr ∧
      ((forwardStep model indices ret st c).1).node_attrs = st.node_attrs ∧
      ((forwardStep model indices ret st c).1).batch = st.batch ∧
      ((forwardStep model indices ret st c).1).pbc = st.pbc := by
    intro st c
    rw [forwardStep_fst]
    exact ⟨rfl, rfl, rfl, rfl⟩
  have hfold : ∀ (cs : List CallInput) (st : InputDict),
      (cs.foldl (fun s c => (forwardStep model indices ret s c).1) st).ptr
          = st.ptr ∧
      (cs.foldl (fun s c => (forwardStep model indices ret s c).1) st).node_attrs
          = st.node_attrs ∧
      (cs.foldl (fun s c => (forwardStep model indices ret s c).1) st).batch
          = st.batch ∧
      (cs.foldl (fun s c => (forwardStep model indices ret s c).1) st).pbc
          = st.pbc := by
    intro cs
    induction cs with
    | nil => intro st; exact ⟨rfl, rfl, rfl, rfl⟩
    | cons c cs2 ih =>
      intro st
      have h1 := hstep st c
      have h2 := ih ((forwardStep model indices ret st c).1)
      simp only [List.foldl_cons]
      exact ⟨h2.1.trans h1.1, h2.2.1.trans h1.2.1,
             h2.2.2.1.trans h1.2.2.1, h2.2.2.2.trans h1.2.2.2⟩
  exact ⟨hfold calls (initInputDict nodeAttrs periodic), hstep⟩

/-- C3 counterexample: with all-atom elements [1, 8], species table [1, 8]
and the active region supplied as [1, 0], the one-hot rows follow the
supplied order (elements [8, 1]) while the position rows are selected by
the ascending-sorted indices [0, 1]; the rows differ from the rows the
ascending order [0, 1] would give, so the species features are not in
ascending atom-index order regardless of supplied order. -/
theorem mace_active_region_order_counterexample :
    includedAtomicNumbers [1, 8] (some [1, 0]) = [8, 1] ∧
    maceIndices (some [1, 0]) = some [0, 1] ∧
    nodeAttrsOf [1, 8] (includedAtomicNumbers [1, 8] (some [1, 0]))
      ≠ nodeAttrsOf [1, 8] (includedAtomicNumbers [1, 8] (some [0, 1])) := by
  refine ⟨by decide, ?_, by decide⟩
  unfold maceIndices
  decide

/-- C3 amended: the assembled graph's node count equals the subset size
and its one-hot rows correspond to the selected atoms' elements in the
order the subset was supplied (hence in ascending order exactly when the
subset is supplied ascending, the data model's invariant), while the
position rows are selected at evaluation time by the ascending-sorted
indices. -/
theorem mace_active_region_graph
    (allZ zTable atomIdx : List Nat) (positions : List Vec3) :
    (nodeAttrsOf zTable (includedAtomicNumbers allZ (some atomIdx))).length
        = atomIdx.length ∧
    (∀ k, k < atomIdx.length →
      (nodeAttrsOf zTable (includedAtomicNumbers allZ (some atomIdx))).getD k []
        = oneHotRow zTable.length
            (zTable.indexOf (allZ.getD (atomIdx.getD k 0) 0))) ∧
    maceIndices (some atomIdx) = some (List.insertionSort (· ≤ ·) atomIdx) ∧
    selectedPositions (maceIndices (some atomIdx)) positions
        = (List.insertionSort (· ≤ ·) atomIdx).map
            (fun i => positions.getD i vzero) ∧
    (List.Sorted (· ≤ ·) atomIdx →
      List.insertionSort (· ≤ ·) atomIdx = atomIdx) := by
  refine ⟨by simp [nodeAttrsOf, includedAtomicNumbers], ?_, rfl, rfl, ?_⟩
  · intro k hk
    have hlen : (includedAtomicNumbers allZ (some atomIdx)).length
        = atomIdx.length := by
      simp [includedAtomicNumbers]
    have hk2 : k < (nodeAttrsOf zTable
        (includedAtomicNumbers allZ (some atomIdx))).length := by
      simp [nodeAttrsOf, hlen]
      omega
    rw [List.getD_eq_getElem _ _ hk2]
    unfold nodeAttrsOf includedAtomicNumbers
    simp only [List.getElem_map]
    rw [List.getD_eq_getElem atomIdx 0 hk]
  · intro hs
    exact List.Sorted.insertionSort_eq hs

theorem mace_active_region_graph_witness :
    (0 < ([2, 0] : List Nat).length) ∧
    List.Sorted (· ≤ ·) ([0, 2] : List Nat) ∧
    (nodeAttrsOf [1, 6, 8] (includedAtomicNumbers [1, 8, 6] (some [2, 0]))).getD 0 []
      = oneHotRow ([1, 6, 8] : List Nat).length
          (([1, 6, 8] : List Nat).indexOf
            (([1, 8, 6] : List Nat).getD (([2, 0] : List Nat).getD 0 0) 0)) ∧
    List.insertionSort (· ≤ ·) ([0, 2] : List Nat) = [0, 2] :=
  ⟨by decide, by decide,
   (mace_active_region_graph [1, 8, 6] [1, 6, 8] [2, 0] []).2.1 0 (by decide),
   (mace_active_region_graph [1, 8, 6] [1, 6, 8] [0, 2] []).2.2.2.2
     (by decide)⟩

end MacePotential
